import Mathlib

/-!
Shallow embedding of the Form-Validator library (`src/FormValidation.ts`)
and proofs about its behavioural contract.

Modelling conventions:
* DOM elements are records carrying the observable attributes the code
  reads (`value`, `checked`, `name`, whether the element is an
  `HTMLInputElement`) together with the list of CSS selectors the element
  matches; `querySelector` returns the first match.
* `JSON.parse(JSON.stringify(x))` is modelled by `jsonCloneStyle` /
  `jsonClonePartial`: strings, string lists and plain style-declaration
  objects round-trip unchanged, while an `HTMLElement` reference
  (`msgContainer`) serialises to the empty plain object `{}`
  (`ContainerVal.plainObj`), exactly as in a JS runtime.
* Thrown JS errors become `Except.error` values of type `VErr`.
* JavaScript objects with string keys enumerate in insertion order, so the
  validator's dictionaries are association lists.
-/

namespace FormSpec

/-- A value stored in the optional `msgContainer` slot: either a live
`HTMLElement` reference (identified by a numeric id) or the plain empty
object `\x7b\x7d` that a JSON round-trip of an `HTMLElement` produces. -/
inductive ContainerVal where
  | elemRef (id : Nat)
  | plainObj
deriving Repr, DecidableEq

/-- The `string | string[]` union used for CSS-class options. -/
inductive CssClassVal where
  | one (s : String)
  | many (ss : List String)
deriving Repr, DecidableEq

/-- A `Partial<CSSStyleDeclaration>`: a plain string-keyed object of CSS
declarations. -/
abbrev CssStyleDecl := List (String × String)

/-- `ValidationStyleOptions` from `FormValidation.ts`. -/
structure StyleOptions where
  errorMsgCssClass : CssClassVal
  errorMsgCssStyle : CssStyleDecl
  errorFieldCssClass : CssClassVal
  errorFieldCssStyle : CssStyleDecl
  successMsgCssClass : CssClassVal
  successMsgCssStyle : CssStyleDecl
  successFieldCssClass : CssClassVal
  successFieldCssStyle : CssStyleDecl
  msgContainer : Option ContainerVal
deriving Repr, DecidableEq

/-- `Partial<ValidationStyleOptions>`: a key absent from the object is
`none`. -/
structure PartialStyleOptions where
  errorMsgCssClass : Option CssClassVal := none
  errorMsgCssStyle : Option CssStyleDecl := none
  errorFieldCssClass : Option CssClassVal := none
  errorFieldCssStyle : Option CssStyleDecl := none
  successMsgCssClass : Option CssClassVal := none
  successMsgCssStyle : Option CssStyleDecl := none
  successFieldCssClass : Option CssClassVal := none
  successFieldCssStyle : Option CssStyleDecl := none
  msgContainer : Option ContainerVal := none
deriving Repr, DecidableEq

/-- The empty override object `\x7b\x7d`. -/
def emptyStyleOverride : PartialStyleOptions := {}

/-- `globalDefaultStyleOptions` from `FormValidation.ts`. -/
def globalDefaultStyleOptions : StyleOptions :=
  { errorMsgCssClass := .one "validator-error-msg"
    errorMsgCssStyle := [("color", "#cc0000")]
    errorFieldCssClass := .one "validator-error-field"
    errorFieldCssStyle := [("color", "#cc0000"), ("border", "1px solid #cc0000")]
    successMsgCssClass := .one "validator-success-msg"
    successMsgCssStyle := [("color", "#4caf50")]
    successFieldCssClass := .one "validator-success-field"
    successFieldCssStyle := [("color", "#4caf50"), ("border", "1px solid #4caf50")]
    msgContainer := none }

/-- Effect of `JSON.parse(JSON.stringify(·))` on a full `StyleOptions`:
every serialisable field round-trips unchanged, an `HTMLElement` reference
degrades to the plain empty object. -/
def jsonCloneStyle (s : StyleOptions) : StyleOptions :=
  { s with msgContainer := s.msgContainer.map fun _ => ContainerVal.plainObj }

/-- Effect of `JSON.parse(JSON.stringify(·))` on a partial override:
absent keys stay absent, present serialisable values round-trip unchanged,
an `HTMLElement` reference degrades to the plain empty object. -/
def jsonClonePartial (o : PartialStyleOptions) : PartialStyleOptions :=
  { o with msgContainer := o.msgContainer.map fun _ => ContainerVal.plainObj }

/-- `FormValidator.overwriteStyleOptions`: JSON-clones the override, then
assigns every key present in the clone onto the current style. -/
def overwriteStyleOptions (currentStyle : StyleOptions) (newStyle : PartialStyleOptions) :
    StyleOptions :=
  let c := jsonClonePartial newStyle
  { errorMsgCssClass := c.errorMsgCssClass.getD currentStyle.errorMsgCssClass
    errorMsgCssStyle := c.errorMsgCssStyle.getD currentStyle.errorMsgCssStyle
    errorFieldCssClass := c.errorFieldCssClass.getD currentStyle.errorFieldCssClass
    errorFieldCssStyle := c.errorFieldCssStyle.getD currentStyle.errorFieldCssStyle
    successMsgCssClass := c.successMsgCssClass.getD currentStyle.successMsgCssClass
    successMsgCssStyle := c.successMsgCssStyle.getD currentStyle.successMsgCssStyle
    successFieldCssClass := c.successFieldCssClass.getD currentStyle.successFieldCssClass
    successFieldCssStyle := c.successFieldCssStyle.getD currentStyle.successFieldCssStyle
    msgContainer :=
      match c.msgContainer with
      | some cv => some cv
      | none => currentStyle.msgContainer }

/-- A DOM element inside the form, restricted to the attributes the
validator reads. `sels` is the set of CSS selectors the element
matches. -/
structure DomElem where
  sels : List String
  isInput : Bool
  name : String
  value : String
  checked : Bool
deriving Repr, DecidableEq

/-- The HTML form element: its child elements in document order. -/
structure Form where
  elems : List DomElem
deriving Repr, DecidableEq

/-- `form.querySelector(sel)`: first descendant matching the selector. -/
def querySelector (f : Form) (sel : String) : Option DomElem :=
  f.elems.find? fun e => sel ∈ e.sels

/-- `form.querySelectorAll("input[name='g']")`: every input element whose
name attribute equals `g`, in document order. -/
def queryAllInputName (f : Form) (g : String) : List DomElem :=
  f.elems.filter fun e => e.isInput && e.name == g

/-- The checked-scan of `validateRequiredGroup`: true iff some input named
`g` is checked. -/
def groupChecked (f : Form) (g : String) : Bool :=
  (queryAllInputName f g).any fun e => e.checked

/-- `Rule` from `FormValidation.ts`. -/
structure Rule where
  name : String
  errorMsg : String
  fn : DomElem → Bool

/-- The state of the auto-created message element the validator owns for a
field (its `innerHTML` and `hidden` flag). -/
structure MsgElem where
  innerHTML : String
  hidden : Bool
deriving Repr, DecidableEq

/-- `FieldValidationItems` from `FormValidation.ts`. The `Set<Rule>` keeps
insertion order, so it is a list here. -/
structure FieldValidationItems where
  isValid : Bool
  style : StyleOptions
  msgElement : Option MsgElem := none
  originalFieldCssText : Option String := none
  rules : List Rule

/-- `GroupValidationItems` from `FormValidation.ts`. -/
structure GroupValidationItems where
  isValid : Bool
  style : StyleOptions
  msgElement : Option MsgElem := none
  originalFieldCssText : Option String := none
  errorMsg : String
deriving Repr, DecidableEq

/-- Association-list lookup, mirroring `obj.hasOwnProperty(key)` /
`obj[key]` on a string-keyed JS object. -/
def lookupAssoc {α : Type} : List (String × α) → String → Option α
  | [], _ => none
  | (k, a) :: rest, key => if k = key then some a else lookupAssoc rest key

/-- Association-list in-place update of an existing key (JS assignment
`obj[key] = b` on a present key keeps enumeration order). -/
def updateAssoc {α : Type} : List (String × α) → String → α → List (String × α)
  | [], _, _ => []
  | (k, a) :: rest, key, b =>
    if k = key then (k, b) :: rest else (k, a) :: updateAssoc rest key b

/-- The `FormValidator` instance state. The submit callback is modelled by
an identity tag (`0` is the initial no-op callback). -/
structure FormValidator where
  formElement : Option Form
  itemsToValidate : List (String × FieldValidationItems) := []
  requiredGroups : List (String × GroupValidationItems) := []
  defaultStyleConfigs : StyleOptions
  submitCallback : Nat := 0

/-- Thrown JS errors of the validator. -/
inductive VErr where
  | formNotFound
  | unregisteredSelector
  | notAnInputElement
  | appendChildTypeError
  | missingGroupEntry
deriving Repr, DecidableEq

/-- The `FormValidator` constructor: resolves the form selector (modelled
by an `Option Form`), throws if nothing matches, JSON-clones the global
default style and overwrites it with the supplied options. -/
def mkFormValidator (form? : Option Form) (styleOptions : PartialStyleOptions := {}) :
    Except VErr FormValidator :=
  match form? with
  | none => .error .formNotFound
  | some f =>
      .ok { formElement := some f
            defaultStyleConfigs :=
              overwriteStyleOptions (jsonCloneStyle globalDefaultStyleOptions) styleOptions }

/-- `FormValidator.onSubmit`: replaces the stored submit callback. -/
def onSubmit (v : FormValidator) (cb : Nat) : FormValidator :=
  { v with submitCallback := cb }

/-- `FormValidator.addField`. On a fresh selector: append an entry whose
style is a JSON clone of the instance default overwritten by the supplied
options. On an existing selector: append the rules and overwrite the
entry's style in place. -/
def addField (v : FormValidator) (cssSelector : String) (rules : List Rule)
    (styleOptions : PartialStyleOptions := {}) : FormValidator :=
  match lookupAssoc v.itemsToValidate cssSelector with
  | some item =>
      { v with
        itemsToValidate :=
          updateAssoc v.itemsToValidate cssSelector
            { item with
              rules := item.rules ++ rules
              style := overwriteStyleOptions item.style styleOptions } }
  | none =>
      { v with
        itemsToValidate :=
          v.itemsToValidate ++
            [(cssSelector,
              { isValid := false
                style := overwriteStyleOptions (jsonCloneStyle v.defaultStyleConfigs) styleOptions
                rules := rules })] }

/-- `FormValidator.addRequiredGroup`. -/
def addRequiredGroup (v : FormValidator) (groupName : String)
    (errorMsg : String := "Group is required.")
    (styleOptions : PartialStyleOptions := {}) : FormValidator :=
  match lookupAssoc v.requiredGroups groupName with
  | some item =>
      { v with
        requiredGroups :=
          updateAssoc v.requiredGroups groupName
            { item with
              errorMsg := errorMsg
              style := overwriteStyleOptions item.style styleOptions } }
  | none =>
      { v with
        requiredGroups :=
          v.requiredGroups ++
            [(groupName,
              { isValid := false
                style := overwriteStyleOptions (jsonCloneStyle v.defaultStyleConfigs) styleOptions
                errorMsg := errorMsg })] }

/-- The message-element step of `validateField` (lines 174-183): reuse the
stored element, or create a hidden one and insert it. Appending to a
`msgContainer` that the JSON clone degraded to a plain object throws a
`TypeError` (`appendChild` is not a function on `\x7b\x7d`). -/
def ensureMsgElement (item : FieldValidationItems) :
    Except VErr (MsgElem × FieldValidationItems) :=
  match item.msgElement with
  | some m => .ok (m, item)
  | none =>
      let m : MsgElem := { innerHTML := "", hidden := true }
      match item.style.msgContainer with
      | some (ContainerVal.elemRef _) => .ok (m, { item with msgElement := some m })
      | some ContainerVal.plainObj => .error .appendChildTypeError
      | none => .ok (m, { item with msgElement := some m })

/-- `FormValidator.validateField`. -/
def validateField (v : FormValidator) (cssSelector : String) :
    Except VErr (Bool × FormValidator) :=
  match v.formElement with
  | none => .error .formNotFound
  | some form =>
      match lookupAssoc v.itemsToValidate cssSelector with
      | none => .error .unregisteredSelector
      | some item =>
          match querySelector form cssSelector with
          | none => .error .notAnInputElement
          | some el =>
              if el.isInput = false then .error .notAnInputElement
              else
                match ensureMsgElement item with
                | .error e => .error e
                | .ok (m, item₁) =>
                    match item₁.rules.find? (fun r => !(r.fn el)) with
                    | some r =>
                        .ok (false,
                          { v with
                            itemsToValidate :=
                              updateAssoc v.itemsToValidate cssSelector
                                { item₁ with
                                  isValid := false
                                  msgElement :=
                                    some { innerHTML := r.errorMsg, hidden := false } } })
                    | none =>
                        .ok (true,
                          { v with
                            itemsToValidate :=
                              updateAssoc v.itemsToValidate cssSelector
                                { item₁ with
                                  msgElement := some { m with hidden := true } } })

/-- `FormValidator.validateRequiredGroup`: runs the checked-scan, then
writes the result into the group's entry; on an unregistered group that
write dereferences `undefined` and throws a `TypeError`. -/
def validateRequiredGroup (v : FormValidator) (groupName : String) :
    Except VErr (Bool × FormValidator) :=
  match v.formElement with
  | none => .error .formNotFound
  | some form =>
      let checked := groupChecked form groupName
      match lookupAssoc v.requiredGroups groupName with
      | none => .error .missingGroupEntry
      | some item =>
          .ok (checked,
            { v with
              requiredGroups :=
                updateAssoc v.requiredGroups groupName { item with isValid := checked } })

/-- The field half of `validate`: `result &&= this.validateField(key)` for
each key; `&&=` only evaluates (and assigns) its right-hand side while the
accumulator is still `true`. -/
def validateFieldsAux : List String → Bool → FormValidator →
    Except VErr (Bool × FormValidator)
  | [], result, v => .ok (result, v)
  | k :: ks, result, v =>
    if result then
      match validateField v k with
      | .error e => .error e
      | .ok (b, v') => validateFieldsAux ks b v'
    else
      validateFieldsAux ks false v

/-- The group half of `validate`, with the same `&&=` semantics. -/
def validateGroupsAux : List String → Bool → FormValidator →
    Except VErr (Bool × FormValidator)
  | [], result, v => .ok (result, v)
  | k :: ks, result, v =>
    if result then
      match validateRequiredGroup v k with
      | .error e => .error e
      | .ok (b, v') => validateGroupsAux ks b v'
    else
      validateGroupsAux ks false v

/-- `FormValidator.validate`. -/
def validate (v : FormValidator) : Except VErr (Bool × FormValidator) :=
  match validateFieldsAux (v.itemsToValidate.map Prod.fst) true v with
  | .error e => .error e
  | .ok (r, v₁) => validateGroupsAux (v₁.requiredGroups.map Prod.fst) r v₁

/-- Observable outcome of one firing of the submit listener. -/
structure SubmitOutcome where
  defaultPrevented : Bool
  propagationStopped : Bool
  invokedCallbacks : List Nat
deriving Repr, DecidableEq

/-- The submit listener installed by the constructor (lines 94-101): run
`validate()`; on `false` prevent default and stop immediate propagation
without invoking the callback; on `true` invoke the stored callback once. -/
def handleSubmit (v : FormValidator) : Except VErr (FormValidator × SubmitOutcome) :=
  match validate v with
  | .error e => .error e
  | .ok (false, v') =>
      .ok (v', { defaultPrevented := true, propagationStopped := true, invokedCallbacks := [] })
  | .ok (true, v') =>
      .ok (v', { defaultPrevented := false, propagationStopped := false
                 invokedCallbacks := [v'.submitCallback] })

/-- A rule list passes on form `f` under selector `sel`: the selector
resolves to an input element on which every rule holds. -/
def fieldPasses (f : Form) (sel : String) (rules : List Rule) : Prop :=
  ∃ el, querySelector f sel = some el ∧ el.isInput = true ∧
    (rules.all fun r => r.fn el) = true

/-- Every registered field passes and every registered group has a checked
member. -/
def allRegisteredPass (v : FormValidator) (f : Form) : Prop :=
  (∀ p ∈ v.itemsToValidate, fieldPasses f p.1 p.2.rules) ∧
  (∀ p ∈ v.requiredGroups, groupChecked f p.1 = true)

theorem lookupAssoc_updateAssoc_self {α : Type} {l : List (String × α)} {k : String} {a : α}
    (b : α) (h : lookupAssoc l k = some a) :
    lookupAssoc (updateAssoc l k b) k = some b := by
  induction l with
  | nil => simp [lookupAssoc] at h
  | cons p rest ih =>
      obtain ⟨k₀, a₀⟩ := p
      by_cases hk : k₀ = k
      · simp [lookupAssoc, updateAssoc, hk]
      · simp only [lookupAssoc, updateAssoc, if_neg hk] at h ⊢
        exact ih h

theorem lookupAssoc_updateAssoc_ne {α : Type} (l : List (String × α)) {k k' : String}
    (hne : k' ≠ k) (b : α) :
    lookupAssoc (updateAssoc l k b) k' = lookupAssoc l k' := by
  induction l with
  | nil => simp [updateAssoc]
  | cons p rest ih =>
      obtain ⟨k₀, a₀⟩ := p
      by_cases hk : k₀ = k
      · subst hk
        have hk' : k₀ ≠ k' := fun h => hne h.symm
        simp [lookupAssoc, updateAssoc, hk']
      · simp only [updateAssoc, if_neg hk, lookupAssoc]
        by_cases hk' : k₀ = k'
        · simp [hk']
        · simp [hk', ih]

theorem updateAssoc_self {α : Type} {l : List (String × α)} {k : String} {a : α}
    (h : lookupAssoc l k = some a) : updateAssoc l k a = l := by
  induction l with
  | nil => simp [updateAssoc]
  | cons p rest ih =>
      obtain ⟨k₀, a₀⟩ := p
      by_cases hk : k₀ = k
      · simp only [lookupAssoc, if_pos hk] at h
        simp only [updateAssoc, if_pos hk]
        cases h
        rfl
      · simp only [lookupAssoc, if_neg hk] at h
        simp [updateAssoc, if_neg hk, ih h]

theorem lookupAssoc_append_left {α : Type} {l : List (String × α)} {k : String} {a : α}
    (l' : List (String × α)) (h : lookupAssoc l k = some a) :
    lookupAssoc (l ++ l') k = some a := by
  induction l with
  | nil => simp [lookupAssoc] at h
  | cons p rest ih =>
      obtain ⟨k₀, a₀⟩ := p
      by_cases hk : k₀ = k
      · simpa [lookupAssoc, hk] using h
      · simp only [lookupAssoc, if_neg hk] at h ⊢
        exact ih h

theorem lookupAssoc_append_none {α : Type} {l : List (String × α)} {k : String}
    (l' : List (String × α)) (h : lookupAssoc l k = none) :
    lookupAssoc (l ++ l') k = lookupAssoc l' k := by
  induction l with
  | nil => simp
  | cons p rest ih =>
      obtain ⟨k₀, a₀⟩ := p
      by_cases hk : k₀ = k
      · simp [lookupAssoc, hk] at h
      · simp only [lookupAssoc, if_neg hk] at h ⊢
        exact ih h

theorem lookupAssoc_of_mem_nodup {α : Type} {l : List (String × α)} {k : String} {a : α}
    (hnd : (l.map Prod.fst).Nodup) (hmem : (k, a) ∈ l) :
    lookupAssoc l k = some a := by
  induction l with
  | nil => cases hmem
  | cons p rest ih =>
      obtain ⟨k₀, a₀⟩ := p
      simp only [List.map_cons, List.nodup_cons] at hnd
      rcases List.mem_cons.mp hmem with heq | htail
      · cases heq
        simp [lookupAssoc]
      · have hk : k₀ ≠ k := by
          intro hc
          subst hc
          exact hnd.1 (List.mem_map.mpr ⟨(k₀, a), htail, rfl⟩)
        simp only [lookupAssoc, if_neg hk]
        exact ih hnd.2 htail

theorem ensureMsgElement_ok_elim {item : FieldValidationItems} {m : MsgElem}
    {item₁ : FieldValidationItems} (h : ensureMsgElement item = .ok (m, item₁)) :
    item₁.msgElement = some m ∧ item₁.rules = item.rules ∧ item₁.isValid = item.isValid ∧
      item₁.style = item.style ∧ item₁.originalFieldCssText = item.originalFieldCssText := by
  unfold ensureMsgElement at h
  split at h
  · next m₀ hm₀ =>
      cases h
      exact ⟨hm₀, rfl, rfl, rfl, rfl⟩
  · split at h
    · cases h
      exact ⟨rfl, rfl, rfl, rfl, rfl⟩
    · cases h
    · cases h
      exact ⟨rfl, rfl, rfl, rfl, rfl⟩

/-- The state `validateField` writes for `sel` when rule `r` is the first
failure. -/
def failState (v : FormValidator) (sel : String) (item₁ : FieldValidationItems)
    (r : Rule) : FormValidator :=
  { v with
    itemsToValidate :=
      updateAssoc v.itemsToValidate sel
        { item₁ with
          isValid := false
          msgElement := some { innerHTML := r.errorMsg, hidden := false } } }

/-- The state `validateField` writes for `sel` when every rule passes. -/
def passState (v : FormValidator) (sel : String) (item₁ : FieldValidationItems)
    (m : MsgElem) : FormValidator :=
  { v with
    itemsToValidate :=
      updateAssoc v.itemsToValidate sel
        { item₁ with msgElement := some { m with hidden := true } } }

theorem validateField_ok_elim {v : FormValidator} {sel : String} {b : Bool}
    {v' : FormValidator} (h : validateField v sel = .ok (b, v')) :
    ∃ form item el m item₁,
      v.formElement = some form ∧
      lookupAssoc v.itemsToValidate sel = some item ∧
      querySelector form sel = some el ∧
      el.isInput = true ∧
      ensureMsgElement item = .ok (m, item₁) ∧
      ((∃ r, item₁.rules.find? (fun r => !(r.fn el)) = some r ∧ b = false ∧
          v' = failState v sel item₁ r) ∨
       (item₁.rules.find? (fun r => !(r.fn el)) = none ∧ b = true ∧
          v' = passState v sel item₁ m)) := by
  unfold validateField at h
  split at h
  · cases h
  · next form hform =>
      split at h
      · cases h
      · next item hitem =>
          split at h
          · cases h
          · next el hel =>
              split at h
              · cases h
              · next hinput =>
                  split at h
                  · cases h
                  · next m item₁ hens =>
                      refine ⟨form, item, el, m, item₁, hform, hitem, hel, ?_, hens, ?_⟩
                      · cases hi : el.isInput
                        · exact absurd hi hinput
                        · rfl
                      · split at h
                        · next r hr =>
                            cases h
                            exact Or.inl ⟨r, hr, rfl, rfl⟩
                        · next hr =>
                            cases h
                            exact Or.inr ⟨hr, rfl, rfl⟩

theorem validateField_fail_eq {v : FormValidator} {sel : String} {form : Form}
    {item item₁ : FieldValidationItems} {el : DomElem} {m : MsgElem} {r : Rule}
    (hform : v.formElement = some form)
    (hitem : lookupAssoc v.itemsToValidate sel = some item)
    (hel : querySelector form sel = some el)
    (hinput : el.isInput = true)
    (hens : ensureMsgElement item = .ok (m, item₁))
    (hr : item₁.rules.find? (fun r => !(r.fn el)) = some r) :
    validateField v sel = .ok (false, failState v sel item₁ r) := by
  simp only [validateField, hform, hitem, hel, hinput, hens, hr, failState]
  rfl

theorem validateField_pass_eq {v : FormValidator} {sel : String} {form : Form}
    {item item₁ : FieldValidationItems} {el : DomElem} {m : MsgElem}
    (hform : v.formElement = some form)
    (hitem : lookupAssoc v.itemsToValidate sel = some item)
    (hel : querySelector form sel = some el)
    (hinput : el.isInput = true)
    (hens : ensureMsgElement item = .ok (m, item₁))
    (hr : item₁.rules.find? (fun r => !(r.fn el)) = none) :
    validateField v sel = .ok (true, passState v sel item₁ m) := by
  simp only [validateField, hform, hitem, hel, hinput, hens, hr, passState]
  rfl

theorem updateAssoc_map_fst {α : Type} (l : List (String × α)) (k : String) (b : α) :
    (updateAssoc l k b).map Prod.fst = l.map Prod.fst := by
  induction l with
  | nil => rfl
  | cons p rest ih =>
      obtain ⟨k₀, a₀⟩ := p
      by_cases hk : k₀ = k <;> simp [updateAssoc, hk, ih]

/-- The state `validateRequiredGroup` writes for a registered group. -/
def groupState (v : FormValidator) (g : String) (item : GroupValidationItems)
    (checked : Bool) : FormValidator :=
  { v with
    requiredGroups := updateAssoc v.requiredGroups g { item with isValid := checked } }

theorem validateRequiredGroup_ok_elim {v : FormValidator} {g : String} {b : Bool}
    {v' : FormValidator} (h : validateRequiredGroup v g = .ok (b, v')) :
    ∃ form item,
      v.formElement = some form ∧
      lookupAssoc v.requiredGroups g = some item ∧
      b = groupChecked form g ∧
      v' = groupState v g item (groupChecked form g) := by
  unfold validateRequiredGroup at h
  split at h
  · cases h
  · next form hform =>
      split at h
      · cases h
      · next item hitem =>
          simp only [Except.ok.injEq, Prod.mk.injEq] at h
          exact ⟨form, item, hform, hitem, h.1.symm, h.2.symm⟩

theorem validateRequiredGroup_eq {v : FormValidator} {g : String} {form : Form}
    {item : GroupValidationItems}
    (hform : v.formElement = some form)
    (hitem : lookupAssoc v.requiredGroups g = some item) :
    validateRequiredGroup v g = .ok (groupChecked form g, groupState v g item (groupChecked form g)) := by
  simp only [validateRequiredGroup, hform, hitem, groupState]

theorem validateFieldsAux_false (ks : List String) (v : FormValidator) :
    validateFieldsAux ks false v = .ok (false, v) := by
  induction ks with
  | nil => rfl
  | cons k ks ih => simp [validateFieldsAux, ih]

theorem validateGroupsAux_false (ks : List String) (v : FormValidator) :
    validateGroupsAux ks false v = .ok (false, v) := by
  induction ks with
  | nil => rfl
  | cons k ks ih => simp [validateGroupsAux, ih]

theorem validateFieldsAux_true_elim :
    ∀ (ks : List String) (v v₂ : FormValidator) (form : Form),
      v.formElement = some form →
      validateFieldsAux ks true v = .ok (true, v₂) →
      (∀ k ∈ ks, ∃ it, lookupAssoc v.itemsToValidate k = some it ∧ fieldPasses form k it.rules) ∧
      v₂.formElement = v.formElement ∧ v₂.requiredGroups = v.requiredGroups := by
  intro ks
  induction ks with
  | nil =>
      intro v v₂ form hform h
      simp only [validateFieldsAux, Except.ok.injEq, Prod.mk.injEq, true_and] at h
      subst h
      exact ⟨by simp, rfl, rfl⟩
  | cons k ks ih =>
      intro v v₂ form hform h
      rw [validateFieldsAux] at h
      simp only [if_true] at h
      cases hvf : validateField v k with
      | error e =>
          rw [hvf] at h
          simp only [] at h
          exact Except.noConfusion h
      | ok p =>
          obtain ⟨b, v'⟩ := p
          rw [hvf] at h
          simp only [] at h
          cases b with
          | false =>
              rw [validateFieldsAux_false] at h
              simp at h
          | true =>
              obtain ⟨form₀, item, el, m, item₁, hform₀, hitem, hel, hinput, hens, hcase⟩ :=
                validateField_ok_elim hvf
              have hf₀ : form₀ = form := by
                rw [hform] at hform₀
                exact (Option.some_inj.mp hform₀).symm
              rw [hf₀] at hel
              rcases hcase with ⟨r, _, hb, _⟩ | ⟨hr, _, hv'⟩
              · cases hb
              · subst hv'
                have hpass : fieldPasses form k item.rules := by
                  refine ⟨el, hel, hinput, ?_⟩
                  rw [← (ensureMsgElement_ok_elim hens).2.1]
                  rw [List.all_eq_true]
                  intro r hrmem
                  have hnr := List.find?_eq_none.mp hr r hrmem
                  simpa using hnr
                obtain ⟨htail, hfe, hrg⟩ := ih (passState v k item₁ m) v₂ form hform h
                refine ⟨?_, hfe, hrg⟩
                intro k' hk'
                rcases List.mem_cons.mp hk' with hkk | hkmem
                · subst hkk
                  exact ⟨item, hitem, hpass⟩
                · obtain ⟨it', hlk', hp'⟩ := htail k' hkmem
                  by_cases hkk : k' = k
                  · subst hkk
                    exact ⟨item, hitem, hpass⟩
                  · refine ⟨it', ?_, hp'⟩
                    rw [← hlk']
                    exact (lookupAssoc_updateAssoc_ne v.itemsToValidate hkk _).symm

theorem validateGroupsAux_true_elim :
    ∀ (ks : List String) (v v₂ : FormValidator) (form : Form),
      v.formElement = some form →
      validateGroupsAux ks true v = .ok (true, v₂) →
      ∀ k ∈ ks, groupChecked form k = true := by
  intro ks
  induction ks with
  | nil => intro v v₂ form _ _ k hk; cases hk
  | cons k ks ih =>
      intro v v₂ form hform h
      rw [validateGroupsAux] at h
      simp only [if_true] at h
      cases hvg : validateRequiredGroup v k with
      | error e =>
          rw [hvg] at h
          simp only [] at h
          exact Except.noConfusion h
      | ok p =>
          obtain ⟨b, v'⟩ := p
          rw [hvg] at h
          simp only [] at h
          cases b with
          | false =>
              rw [validateGroupsAux_false] at h
              simp at h
          | true =>
              obtain ⟨form₀, item, hform₀, hitem, hb, hv'⟩ := validateRequiredGroup_ok_elim hvg
              have hf₀ : form₀ = form := by
                rw [hform] at hform₀
                exact (Option.some_inj.mp hform₀).symm
              rw [hf₀] at hb hv'
              intro k' hk'
              rcases List.mem_cons.mp hk' with hkk | hkmem
              · subst hkk
                exact hb.symm
              · subst hv'
                exact ih (groupState v k item (groupChecked form k)) v₂ form hform h k' hkmem

theorem validateFieldsAux_pass_intro :
    ∀ (ks : List String) (v : FormValidator) (form : Form),
      v.formElement = some form →
      (∀ k ∈ ks, ∃ it, lookupAssoc v.itemsToValidate k = some it ∧
        fieldPasses form k it.rules ∧ ∃ q, ensureMsgElement it = .ok q) →
      ∃ v₂, validateFieldsAux ks true v = .ok (true, v₂) ∧
        v₂.formElement = v.formElement ∧ v₂.requiredGroups = v.requiredGroups ∧
        v₂.submitCallback = v.submitCallback := by
  intro ks
  induction ks with
  | nil =>
      intro v form hform _
      exact ⟨v, rfl, rfl, rfl, rfl⟩
  | cons k ks ih =>
      intro v form hform hks
      obtain ⟨item, hitem, ⟨el, hel, hinput, hall⟩, ⟨m, item₁⟩, hens⟩ :=
        hks k (List.mem_cons_self k ks)
      have hr : item₁.rules.find? (fun r => !(r.fn el)) = none := by
        rw [List.find?_eq_none]
        intro r hrmem
        have hrules := (ensureMsgElement_ok_elim hens).2.1
        rw [hrules] at hrmem
        have := List.all_eq_true.mp hall r hrmem
        simp [this]
      have hvf := validateField_pass_eq hform hitem hel hinput hens hr
      have hform' : (passState v k item₁ m).formElement = some form := hform
      have hks' : ∀ k' ∈ ks, ∃ it,
          lookupAssoc (passState v k item₁ m).itemsToValidate k' = some it ∧
          fieldPasses form k' it.rules ∧ ∃ q, ensureMsgElement it = .ok q := by
        intro k' hk'
        by_cases hkk : k' = k
        · subst hkk
          refine ⟨{ item₁ with msgElement := some { m with hidden := true } }, ?_, ?_, ?_⟩
          · exact lookupAssoc_updateAssoc_self _ hitem
          · have hrules := (ensureMsgElement_ok_elim hens).2.1
            exact ⟨el, hel, hinput, by simpa [hrules] using hall⟩
          · exact ⟨({ m with hidden := true },
              { item₁ with msgElement := some { m with hidden := true } }), rfl⟩
        · obtain ⟨it, hit, hp, hq⟩ := hks k' (List.mem_cons_of_mem k hk')
          refine ⟨it, ?_, hp, hq⟩
          rw [← hit]
          exact lookupAssoc_updateAssoc_ne v.itemsToValidate hkk _
      obtain ⟨v₂, haux, hfe, hrg, hsc⟩ := ih (passState v k item₁ m) form hform' hks'
      refine ⟨v₂, ?_, hfe, hrg, hsc⟩
      rw [validateFieldsAux]
      simp only [if_true, hvf]
      exact haux

theorem validateGroupsAux_pass_intro :
    ∀ (ks : List String) (v : FormValidator) (form : Form),
      v.formElement = some form →
      (∀ k ∈ ks, ∃ it, lookupAssoc v.requiredGroups k = some it) →
      (∀ k ∈ ks, groupChecked form k = true) →
      ∃ v₂, validateGroupsAux ks true v = .ok (true, v₂) := by
  intro ks
  induction ks with
  | nil => intro v form _ _ _; exact ⟨v, rfl⟩
  | cons k ks ih =>
      intro v form hform hreg hchk
      obtain ⟨item, hitem⟩ := hreg k (List.mem_cons_self k ks)
      have hvg := validateRequiredGroup_eq hform hitem
      have hck : groupChecked form k = true := hchk k (List.mem_cons_self k ks)
      have hform' : (groupState v k item (groupChecked form k)).formElement = some form := hform
      have hreg' : ∀ k' ∈ ks, ∃ it,
          lookupAssoc (groupState v k item (groupChecked form k)).requiredGroups k' = some it := by
        intro k' hk'
        by_cases hkk : k' = k
        · subst hkk
          exact ⟨{ item with isValid := groupChecked form k' },
            lookupAssoc_updateAssoc_self _ hitem⟩
        · obtain ⟨it, hit⟩ := hreg k' (List.mem_cons_of_mem k hk')
          refine ⟨it, ?_⟩
          rw [← hit]
          exact lookupAssoc_updateAssoc_ne v.requiredGroups hkk _
      obtain ⟨v₂, haux⟩ :=
        ih (groupState v k item (groupChecked form k)) form hform' hreg'
          (fun k' hk' => hchk k' (List.mem_cons_of_mem k hk'))
      refine ⟨v₂, ?_⟩
      rw [validateGroupsAux]
      simp only [if_true, hvg]
      rw [hck] at haux ⊢
      exact haux

theorem lookupAssoc_mem {α : Type} {l : List (String × α)} {k : String} {a : α}
    (h : lookupAssoc l k = some a) : (k, a) ∈ l := by
  induction l with
  | nil => simp [lookupAssoc] at h
  | cons p rest ih =>
      obtain ⟨k₀, a₀⟩ := p
      by_cases hk : k₀ = k
      · subst hk
        have h' : some a₀ = some a := by simpa [lookupAssoc] using h
        obtain rfl := Option.some_inj.mp h'
        exact List.mem_cons_self _ _
      · simp only [lookupAssoc, if_neg hk] at h
        exact List.mem_cons_of_mem _ (ih h)

theorem lookupAssoc_isSome_of_mem_keys {α : Type} {l : List (String × α)} {k : String}
    (h : k ∈ l.map Prod.fst) : ∃ a, lookupAssoc l k = some a := by
  induction l with
  | nil => simp at h
  | cons p rest ih =>
      obtain ⟨k₀, a₀⟩ := p
      by_cases hk : k₀ = k
      · exact ⟨a₀, by simp [lookupAssoc, hk]⟩
      · have : k ∈ rest.map Prod.fst := by
          rcases List.mem_cons.mp h with heq | hmem
          · exact absurd heq.symm hk
          · exact hmem
        obtain ⟨a, ha⟩ := ih this
        exact ⟨a, by simp [lookupAssoc, hk, ha]⟩

theorem allPass_of_validate_true {v : FormValidator} {form : Form}
    (hform : v.formElement = some form)
    (hnd : (v.itemsToValidate.map Prod.fst).Nodup)
    (h : (validate v).map Prod.fst = .ok true) :
    allRegisteredPass v form := by
  unfold validate at h
  cases hfa : validateFieldsAux (v.itemsToValidate.map Prod.fst) true v with
  | error e => rw [hfa] at h; exact Except.noConfusion h
  | ok p =>
      obtain ⟨r, v₁⟩ := p
      rw [hfa] at h
      simp only [] at h
      cases r with
      | false =>
          rw [validateGroupsAux_false] at h
          exact Bool.noConfusion (Except.ok.inj h)
      | true =>
          cases hga : validateGroupsAux (v₁.requiredGroups.map Prod.fst) true v₁ with
          | error e => rw [hga] at h; exact Except.noConfusion h
          | ok q =>
              obtain ⟨r₂, v₂⟩ := q
              rw [hga] at h
              simp only [Except.map, Except.ok.injEq] at h
              subst h
              obtain ⟨hkeys, hfe, hrg⟩ :=
                validateFieldsAux_true_elim _ v v₁ form hform hfa
              have hform₁ : v₁.formElement = some form := by rw [hfe]; exact hform
              have hgrps := validateGroupsAux_true_elim _ v₁ v₂ form hform₁ hga
              constructor
              · intro p hp
                have hk : p.1 ∈ v.itemsToValidate.map Prod.fst :=
                  List.mem_map_of_mem Prod.fst hp
                obtain ⟨it, hit, hpass⟩ := hkeys p.1 hk
                have hlp : lookupAssoc v.itemsToValidate p.1 = some p.2 :=
                  lookupAssoc_of_mem_nodup hnd (by cases p; exact hp)
                rw [hlp] at hit
                obtain rfl := Option.some_inj.mp hit
                exact hpass
              · intro p hp
                have hk : p.1 ∈ v₁.requiredGroups.map Prod.fst := by
                  rw [hrg]
                  exact List.mem_map_of_mem Prod.fst hp
                exact hgrps p.1 hk

theorem validate_true_of_allPass {v : FormValidator} {form : Form}
    (hform : v.formElement = some form)
    (hens : ∀ p ∈ v.itemsToValidate, ∃ q, ensureMsgElement p.2 = .ok q)
    (h : allRegisteredPass v form) :
    (validate v).map Prod.fst = .ok true := by
  obtain ⟨v₁, hfaux, hfe, hrg, _⟩ :=
    validateFieldsAux_pass_intro (v.itemsToValidate.map Prod.fst) v form hform
      (by
        intro k hk
        obtain ⟨a, ha⟩ := lookupAssoc_isSome_of_mem_keys hk
        have hmem := lookupAssoc_mem ha
        exact ⟨a, ha, h.1 (k, a) hmem, hens (k, a) hmem⟩)
  have hform₁ : v₁.formElement = some form := by rw [hfe]; exact hform
  obtain ⟨v₂, hgaux⟩ :=
    validateGroupsAux_pass_intro (v₁.requiredGroups.map Prod.fst) v₁ form hform₁
      (by
        intro k hk
        rw [hrg] at hk ⊢
        exact lookupAssoc_isSome_of_mem_keys hk)
      (by
        intro k hk
        rw [hrg] at hk
        obtain ⟨a, ha⟩ := lookupAssoc_isSome_of_mem_keys hk
        exact h.2 (k, a) (lookupAssoc_mem ha))
  unfold validate
  rw [hfaux]
  simp only []
  rw [hgaux]
  rfl

theorem find?_eq_of_first {α : Type} (p : α → Bool) :
    ∀ (l : List α) (i : Nat) (r : α), l.get? i = some r → p r = true →
      (∀ j, j < i → ∀ x, l.get? j = some x → p x = false) →
      l.find? p = some r := by
  intro l
  induction l with
  | nil => intro i r h _ _; simp at h
  | cons a l ih =>
      intro i r hget hp hmin
      cases i with
      | zero =>
          simp only [List.get?] at hget
          obtain rfl := Option.some_inj.mp hget
          exact List.find?_cons_of_pos _ hp
      | succ i =>
          have ha : p a = false := hmin 0 (Nat.succ_pos i) a rfl
          rw [List.find?_cons_of_neg _ (by simp [ha])]
          exact ih i r hget hp (fun j hj x hx => hmin (j + 1) (Nat.succ_lt_succ hj) x hx)

theorem validateFieldsAux_submitCallback :
    ∀ (ks : List String) (r : Bool) (v : FormValidator) (b : Bool) (v' : FormValidator),
      validateFieldsAux ks r v = .ok (b, v') → v'.submitCallback = v.submitCallback := by
  intro ks
  induction ks with
  | nil =>
      intro r v b v' h
      simp only [validateFieldsAux, Except.ok.injEq, Prod.mk.injEq] at h
      rw [← h.2]
  | cons k ks ih =>
      intro r v b v' h
      rw [validateFieldsAux] at h
      cases r with
      | false =>
          simp only [if_false, Bool.false_eq_true, if_neg] at h
          exact ih false v b v' (by simpa using h)
      | true =>
          simp only [if_true] at h
          cases hvf : validateField v k with
          | error e =>
              rw [hvf] at h
              simp only [] at h
              exact Except.noConfusion h
          | ok p =>
              obtain ⟨b₀, w⟩ := p
              rw [hvf] at h
              simp only [] at h
              have hw : w.submitCallback = v.submitCallback := by
                obtain ⟨_, _, _, _, _, _, _, _, _, _, hcase⟩ := validateField_ok_elim hvf
                rcases hcase with ⟨r', _, _, hv'⟩ | ⟨_, _, hv'⟩ <;> rw [hv'] <;> rfl
              rw [ih b₀ w b v' h, hw]

theorem validateGroupsAux_submitCallback :
    ∀ (ks : List String) (r : Bool) (v : FormValidator) (b : Bool) (v' : FormValidator),
      validateGroupsAux ks r v = .ok (b, v') → v'.submitCallback = v.submitCallback := by
  intro ks
  induction ks with
  | nil =>
      intro r v b v' h
      simp only [validateGroupsAux, Except.ok.injEq, Prod.mk.injEq] at h
      rw [← h.2]
  | cons k ks ih =>
      intro r v b v' h
      rw [validateGroupsAux] at h
      cases r with
      | false =>
          simp only [if_false, Bool.false_eq_true, if_neg] at h
          exact ih false v b v' (by simpa using h)
      | true =>
          simp only [if_true] at h
          cases hvg : validateRequiredGroup v k with
          | error e =>
              rw [hvg] at h
              simp only [] at h
              exact Except.noConfusion h
          | ok p =>
              obtain ⟨b₀, w⟩ := p
              rw [hvg] at h
              simp only [] at h
              have hw : w.submitCallback = v.submitCallback := by
                obtain ⟨_, _, _, _, _, hv'⟩ := validateRequiredGroup_ok_elim hvg
                rw [hv']
                rfl
              rw [ih b₀ w b v' h, hw]

theorem validate_submitCallback {v : FormValidator} {b : Bool} {v' : FormValidator}
    (h : validate v = .ok (b, v')) : v'.submitCallback = v.submitCallback := by
  unfold validate at h
  cases hfa : validateFieldsAux (v.itemsToValidate.map Prod.fst) true v with
  | error e => rw [hfa] at h; exact Except.noConfusion h
  | ok p =>
      obtain ⟨r, v₁⟩ := p
      rw [hfa] at h
      simp only [] at h
      rw [validateGroupsAux_submitCallback _ r v₁ b v' h,
        validateFieldsAux_submitCallback _ true v r v₁ hfa]

theorem lookupAssoc_append_single_ne {α : Type} (l : List (String × α)) {k k' : String}
    (hne : k' ≠ k) (x : α) :
    lookupAssoc (l ++ [(k, x)]) k' = lookupAssoc l k' := by
  induction l with
  | nil =>
      simp only [List.nil_append, lookupAssoc]
      rw [if_neg (fun h => hne h.symm)]
  | cons p rest ih =>
      obtain ⟨k₀, a₀⟩ := p
      by_cases hk : k₀ = k'
      · simp [lookupAssoc, hk]
      · simp only [List.cons_append, lookupAssoc, if_neg hk]
        exact ih

/-! Concrete data used by witnesses and counterexamples. -/

/-- The case-insensitive-A rule from the repository's tests. -/
def ruleAnyA : Rule :=
  { name := "Is Case Insensitve A"
    errorMsg := "Value must be an A."
    fn := fun e => e.value == "a" || e.value == "A" }

/-- The uppercase-A rule from the repository's tests. -/
def ruleUpperA : Rule :=
  { name := "Is Upper Case A"
    errorMsg := "Value must be uppercase A."
    fn := fun e => e.value == "A" }

/-- A rule that rejects every field state. -/
def ruleAlwaysFail : Rule :=
  { name := "always-fail", errorMsg := "always fails", fn := fun _ => false }

/-- A rule that accepts every field state. -/
def ruleAlwaysPass : Rule :=
  { name := "always-pass", errorMsg := "never shown", fn := fun _ => true }

/-- A text input matched by the selector `input`. -/
def inputElem (v : String) : DomElem :=
  { sels := ["input"], isInput := true, name := "input-1", value := v, checked := false }

/-- A field entry holding the given rules and the default style. -/
def defaultItem (rs : List Rule) : FieldValidationItems :=
  { isValid := false, style := globalDefaultStyleOptions, rules := rs }

def elA : DomElem :=
  { sels := ["#a"], isInput := true, name := "a", value := "", checked := false }

def elB : DomElem :=
  { sels := ["#b"], isInput := true, name := "b", value := "", checked := false }

def formAB : Form := ⟨[elA, elB]⟩

/-- A two-field validator whose first field fails and second passes. -/
def vCex : FormValidator :=
  { formElement := some formAB
    itemsToValidate := [("#a", defaultItem [ruleAlwaysFail]), ("#b", defaultItem [ruleAlwaysPass])]
    defaultStyleConfigs := globalDefaultStyleOptions }

/-- A checked input named `g`, member of a required group. -/
def elG : DomElem :=
  { sels := [], isInput := true, name := "g", value := "", checked := true }

def formPass : Form := ⟨[elA, elG]⟩

def groupItemDefault : GroupValidationItems :=
  { isValid := false, style := globalDefaultStyleOptions, errorMsg := "Group is required." }

/-- A validator whose single field and single group both pass. -/
def vAmend : FormValidator :=
  { formElement := some formPass
    itemsToValidate := [("#a", defaultItem [ruleAlwaysPass])]
    requiredGroups := [("g", groupItemDefault)]
    defaultStyleConfigs := globalDefaultStyleOptions }

/-- C1, counterexample. The claim says `validate` evaluates every
registered entry even after an earlier failure, refreshing each entry's
state. On `vCex` the first field fails, `validate` returns false, and the
second field's message element is still `none` afterwards — it was never
evaluated — although evaluating it directly would create the element.
`result &&= this.validateField(key)` short-circuits. -/
theorem validate_skips_after_failure_cex :
    (validate vCex).map Prod.fst = .ok false ∧
    ((validate vCex).toOption.bind fun p =>
      (lookupAssoc p.2.itemsToValidate "#b").map FieldValidationItems.msgElement) = some none ∧
    ((validateField vCex "#b").toOption.bind fun p =>
      (lookupAssoc p.2.itemsToValidate "#b").map FieldValidationItems.msgElement) =
        some (some { innerHTML := "", hidden := true }) :=
  ⟨rfl, rfl, rfl⟩

/-- C1 (amended): `validate()` returns true iff every registered field
passes all its rules and every registered group has a checked member, but
evaluation short-circuits at the aggregate level: `result &&=` stops
evaluating once an entry has failed, so entries after the first failure
are not evaluated and their `isValid`/message state is not refreshed (the
second and third conjuncts: with a false accumulator the remaining keys
are skipped and the state is returned unchanged). -/
theorem validate_aggregate_amended (v : FormValidator) (form : Form)
    (hform : v.formElement = some form)
    (hnd : (v.itemsToValidate.map Prod.fst).Nodup)
    (hens : ∀ p ∈ v.itemsToValidate, ∃ q, ensureMsgElement p.2 = .ok q) :
    ((validate v).map Prod.fst = .ok true ↔ allRegisteredPass v form) ∧
    (∀ (ks : List String) (w : FormValidator),
      validateFieldsAux ks false w = .ok (false, w)) ∧
    (∀ (ks : List String) (w : FormValidator),
      validateGroupsAux ks false w = .ok (false, w)) :=
  ⟨⟨fun h => allPass_of_validate_true hform hnd h,
    fun h => validate_true_of_allPass hform hens h⟩,
   validateFieldsAux_false, validateGroupsAux_false⟩

/-- Witness for C1's amended theorem at a concrete passing validator. -/
theorem validate_aggregate_amended_witness :
    ((validate vAmend).map Prod.fst = .ok true ↔ allRegisteredPass vAmend formPass) ∧
    (∀ (ks : List String) (w : FormValidator),
      validateFieldsAux ks false w = .ok (false, w)) ∧
    (∀ (ks : List String) (w : FormValidator),
      validateGroupsAux ks false w = .ok (false, w)) :=
  validate_aggregate_amended vAmend formPass rfl (by decide)
    (fun p hp => by
      obtain rfl := List.mem_singleton.mp hp
      exact ⟨({ innerHTML := "", hidden := true },
        { defaultItem [ruleAlwaysPass] with
            msgElement := some { innerHTML := "", hidden := true } }), rfl⟩)

/-- C2: for a registered field whose selector resolves to an input
element, `validateField` returns true iff every rule in the entry's rule
sequence accepts the element (first conjunct); when all rules pass the
message element ends hidden (second conjunct); and when the rule at
position `i` is the first failing one, the call returns false, sets the
entry's `isValid` to false and displays exactly that rule's `errorMsg`
with the message element visible (third conjunct) — first-failure-wins. -/
theorem validateField_first_failure_spec (v : FormValidator) (form : Form) (sel : String)
    (item : FieldValidationItems) (el : DomElem) (m : MsgElem) (item₁ : FieldValidationItems)
    (hform : v.formElement = some form)
    (hitem : lookupAssoc v.itemsToValidate sel = some item)
    (hel : querySelector form sel = some el)
    (hinput : el.isInput = true)
    (hens : ensureMsgElement item = .ok (m, item₁)) :
    ((validateField v sel).map Prod.fst = .ok (item.rules.all fun r => r.fn el)) ∧
    ((∀ r ∈ item.rules, r.fn el = true) →
      ∃ v', validateField v sel = .ok (true, v') ∧
        (lookupAssoc v'.itemsToValidate sel).map (fun it => it.msgElement.map MsgElem.hidden) =
          some (some true)) ∧
    (∀ i r, item.rules.get? i = some r → r.fn el = false →
      (∀ j, j < i → ∀ r', item.rules.get? j = some r' → r'.fn el = true) →
      ∃ v', validateField v sel = .ok (false, v') ∧
        (lookupAssoc v'.itemsToValidate sel).map (fun it => (it.isValid, it.msgElement)) =
          some (false, some { innerHTML := r.errorMsg, hidden := false })) := by
  have hrules := (ensureMsgElement_ok_elim hens).2.1
  refine ⟨?_, ?_, ?_⟩
  · cases hfind : item₁.rules.find? (fun r => !(r.fn el)) with
    | some r =>
        rw [validateField_fail_eq hform hitem hel hinput hens hfind]
        have hmem := List.mem_of_find?_eq_some hfind
        have hpr := List.find?_some hfind
        rw [hrules] at hmem
        have hall : (item.rules.all fun r => r.fn el) = false := by
          cases hall : item.rules.all (fun r => r.fn el) with
          | false => rfl
          | true =>
              have := List.all_eq_true.mp hall r hmem
              rw [this] at hpr
              simp at hpr
        rw [hall]
        rfl
    | none =>
        rw [validateField_pass_eq hform hitem hel hinput hens hfind]
        have hall : (item.rules.all fun r => r.fn el) = true := by
          rw [List.all_eq_true]
          intro r hr
          rw [← hrules] at hr
          have := List.find?_eq_none.mp hfind r hr
          simpa using this
        rw [hall]
        rfl
  · intro hall
    have hfind : item₁.rules.find? (fun r => !(r.fn el)) = none := by
      rw [List.find?_eq_none]
      intro r hr
      rw [hrules] at hr
      simp [hall r hr]
    refine ⟨passState v sel item₁ m,
      validateField_pass_eq hform hitem hel hinput hens hfind, ?_⟩
    simp only [passState]
    rw [lookupAssoc_updateAssoc_self _ hitem]
    rfl
  · intro i r hgeti hfail hmin
    have hfind : item₁.rules.find? (fun r => !(r.fn el)) = some r := by
      rw [hrules]
      exact find?_eq_of_first _ item.rules i r hgeti (by simp [hfail])
        (fun j hj x hx => by simp [hmin j hj x hx])
    refine ⟨failState v sel item₁ r,
      validateField_fail_eq hform hitem hel hinput hens hfind, ?_⟩
    simp only [failState]
    rw [lookupAssoc_updateAssoc_self _ hitem]
    rfl

/-- A one-field validator over a text input with value `"a"`. -/
def c2v : FormValidator :=
  { formElement := some ⟨[inputElem "a"]⟩
    itemsToValidate := [("input", defaultItem [ruleAnyA, ruleUpperA])]
    defaultStyleConfigs := globalDefaultStyleOptions }

/-- Scenario 2 of the spec: rules `[ruleAnyA, ruleUpperA]` on value `"a"`:
the first failing rule is `ruleUpperA` (index 1) and its message is
displayed. -/
theorem validateField_first_failure_spec_witness :
    ∃ v', validateField c2v "input" = .ok (false, v') ∧
      (lookupAssoc v'.itemsToValidate "input").map (fun it => (it.isValid, it.msgElement)) =
        some (false, some { innerHTML := "Value must be uppercase A.", hidden := false }) :=
  (validateField_first_failure_spec c2v ⟨[inputElem "a"]⟩ "input"
      (defaultItem [ruleAnyA, ruleUpperA]) (inputElem "a") { innerHTML := "", hidden := true }
      { defaultItem [ruleAnyA, ruleUpperA] with
          msgElement := some { innerHTML := "", hidden := true } }
      rfl rfl rfl rfl rfl).2.2 1 ruleUpperA rfl (by decide)
    (by
      intro j hj r' hr'
      cases j with
      | zero =>
          obtain rfl := Option.some_inj.mp hr'
          decide
      | succ j => exact absurd hj (by omega))

/-- C3: for a registered group `g`, `validateRequiredGroup` returns the
checked-scan result and writes it into the entry's `isValid`; the result
is true iff at least one input element named `g` has a true checked state;
and appending further unchecked elements to the form never turns a true
result false. -/
theorem validateRequiredGroup_spec (v : FormValidator) (f : Form) (g : String)
    (item : GroupValidationItems)
    (hf : v.formElement = some f)
    (hreg : lookupAssoc v.requiredGroups g = some item) :
    validateRequiredGroup v g =
      .ok (groupChecked f g, groupState v g item (groupChecked f g)) ∧
    (groupChecked f g = true ↔
      ∃ e ∈ f.elems, e.isInput = true ∧ e.name = g ∧ e.checked = true) ∧
    (lookupAssoc (groupState v g item (groupChecked f g)).requiredGroups g).map
        GroupValidationItems.isValid = some (groupChecked f g) ∧
    (∀ es : List DomElem, (∀ e ∈ es, e.checked = false) →
      groupChecked f g = true → groupChecked ⟨f.elems ++ es⟩ g = true) := by
  refine ⟨validateRequiredGroup_eq hf hreg, ?_, ?_, ?_⟩
  · simp only [groupChecked, queryAllInputName, List.any_eq_true, List.mem_filter,
      Bool.and_eq_true, beq_iff_eq]
    constructor
    · rintro ⟨e, ⟨hmem, hin, hname⟩, hchk⟩
      exact ⟨e, hmem, hin, hname, hchk⟩
    · rintro ⟨e, hmem, hin, hname, hchk⟩
      exact ⟨e, ⟨hmem, hin, hname⟩, hchk⟩
  · simp only [groupState]
    rw [lookupAssoc_updateAssoc_self _ hreg]
    rfl
  · intro es hes htrue
    simp only [groupChecked, queryAllInputName] at htrue ⊢
    simp [List.filter_append, List.any_append, htrue]

/-- A form holding the three group inputs of the repository's group test,
with the second one checked. -/
def c3form : Form :=
  ⟨[{ sels := [], isInput := true, name := "required-group", value := "1", checked := false },
    { sels := [], isInput := true, name := "required-group", value := "2", checked := true },
    { sels := [], isInput := true, name := "required-group", value := "3", checked := false }]⟩

/-- A validator with the group `required-group` registered. -/
def c3v : FormValidator :=
  { formElement := some c3form
    requiredGroups := [("required-group", groupItemDefault)]
    defaultStyleConfigs := globalDefaultStyleOptions }

/-- Witness for C3 at a concrete three-element group with one member
checked. -/
theorem validateRequiredGroup_spec_witness :
    validateRequiredGroup c3v "required-group" =
      .ok (groupChecked c3form "required-group",
        groupState c3v "required-group" groupItemDefault
          (groupChecked c3form "required-group")) ∧
    (groupChecked c3form "required-group" = true ↔
      ∃ e ∈ c3form.elems, e.isInput = true ∧ e.name = "required-group" ∧ e.checked = true) ∧
    (lookupAssoc (groupState c3v "required-group" groupItemDefault
        (groupChecked c3form "required-group")).requiredGroups "required-group").map
        GroupValidationItems.isValid = some (groupChecked c3form "required-group") ∧
    (∀ es : List DomElem, (∀ e ∈ es, e.checked = false) →
      groupChecked c3form "required-group" = true →
      groupChecked ⟨c3form.elems ++ es⟩ "required-group" = true) :=
  validateRequiredGroup_spec c3v c3form "required-group" groupItemDefault rfl rfl

/-- C6: `validateField` on a selector never registered through `addField`
throws the UnregisteredSelector error, before any element resolution or
rule evaluation — regardless of the form's contents. -/
theorem validateField_unregistered_throws (v : FormValidator) (f : Form) (s : String)
    (hf : v.formElement = some f)
    (hs : lookupAssoc v.itemsToValidate s = none) :
    validateField v s = .error .unregisteredSelector := by
  simp only [validateField, hf, hs]

/-- An input element matching both `input` and `[name='input-1']`. -/
def c6el : DomElem :=
  { sels := ["input", "[name='input-1']"], isInput := true, name := "input-1"
    value := "A", checked := false }

def c6form : Form := ⟨[c6el]⟩

/-- A validator that registered only the selector `input`. -/
def c6v : FormValidator :=
  { formElement := some c6form
    itemsToValidate := [("input", defaultItem [ruleAnyA, ruleUpperA])]
    defaultStyleConfigs := globalDefaultStyleOptions }

/-- Witness for C6: the element matching `[name='input-1']` exists in the
form, yet the unregistered selector throws. -/
theorem validateField_unregistered_throws_witness :
    querySelector c6form "[name='input-1']" = some c6el ∧
    validateField c6v "[name='input-1']" = .error .unregisteredSelector :=
  ⟨by decide, validateField_unregistered_throws c6v c6form _ rfl rfl⟩

/-- C10: `validateRequiredGroup` on a group never registered through
`addRequiredGroup` runs the checked-scan and then fails on the `isValid`
write into the missing entry — it throws instead of returning a boolean,
whatever the form contains. -/
theorem validateRequiredGroup_unregistered_throws (v : FormValidator) (f : Form) (g : String)
    (hf : v.formElement = some f)
    (hg : lookupAssoc v.requiredGroups g = none) :
    validateRequiredGroup v g = .error .missingGroupEntry := by
  simp only [validateRequiredGroup, hf, hg]

/-- A form with a checked input named `required-group`. -/
def c10form : Form :=
  ⟨[{ sels := [], isInput := true, name := "required-group", value := "1", checked := true }]⟩

/-- A validator with no registered group. -/
def c10v : FormValidator :=
  { formElement := some c10form
    defaultStyleConfigs := globalDefaultStyleOptions }

/-- Witness for C10: the group's scan would find a checked member, yet the
call throws because the group was never registered. -/
theorem validateRequiredGroup_unregistered_throws_witness :
    groupChecked c10form "required-group" = true ∧
    validateRequiredGroup c10v "required-group" = .error .missingGroupEntry :=
  ⟨by decide, validateRequiredGroup_unregistered_throws c10v c10form _ rfl rfl⟩

/-- C7: `validateField` is idempotent on unchanged field state. If a call
returns boolean `b` and leaves the validator in state `v₁`, an immediately
repeated call returns the same boolean and leaves `v₁` exactly as it was —
same message content and visibility, and the message element (created on
the first call) is not created again. -/
theorem validateField_idempotent (v : FormValidator) (sel : String) (b : Bool)
    (v₁ : FormValidator) (h : validateField v sel = .ok (b, v₁)) :
    validateField v₁ sel = .ok (b, v₁) := by
  obtain ⟨form, item, el, m, item₁, hform, hitem, hel, hinput, hens, hcase⟩ :=
    validateField_ok_elim h
  rcases hcase with ⟨r, hr, hb, hv₁⟩ | ⟨hr, hb, hv₁⟩
  · subst hb
    subst hv₁
    have hform' : (failState v sel item₁ r).formElement = some form := hform
    have hitem' : lookupAssoc (failState v sel item₁ r).itemsToValidate sel =
        some { item₁ with
                isValid := false
                msgElement := some { innerHTML := r.errorMsg, hidden := false } } := by
      simp only [failState]
      exact lookupAssoc_updateAssoc_self _ hitem
    have hens' : ensureMsgElement
        { item₁ with
          isValid := false
          msgElement := some { innerHTML := r.errorMsg, hidden := false } } =
        .ok ({ innerHTML := r.errorMsg, hidden := false },
          { item₁ with
            isValid := false
            msgElement := some { innerHTML := r.errorMsg, hidden := false } }) := rfl
    have hr' : ({ item₁ with
        isValid := false
        msgElement := some { innerHTML := r.errorMsg, hidden := false } } :
        FieldValidationItems).rules.find? (fun r => !(r.fn el)) = some r := hr
    have heq := validateField_fail_eq hform' hitem' hel hinput hens' hr'
    have hstate : failState (failState v sel item₁ r) sel
        { item₁ with
          isValid := false
          msgElement := some { innerHTML := r.errorMsg, hidden := false } } r =
        failState v sel item₁ r := by
      show ({ failState v sel item₁ r with
        itemsToValidate := updateAssoc (failState v sel item₁ r).itemsToValidate sel
          { item₁ with
            isValid := false
            msgElement := some { innerHTML := r.errorMsg, hidden := false } } } :
        FormValidator) = failState v sel item₁ r
      rw [updateAssoc_self hitem']
    rw [heq, hstate]
  · subst hb
    subst hv₁
    have hform' : (passState v sel item₁ m).formElement = some form := hform
    have hitem' : lookupAssoc (passState v sel item₁ m).itemsToValidate sel =
        some { item₁ with msgElement := some { m with hidden := true } } := by
      simp only [passState]
      exact lookupAssoc_updateAssoc_self _ hitem
    have hens' : ensureMsgElement
        { item₁ with msgElement := some { m with hidden := true } } =
        .ok ({ m with hidden := true },
          { item₁ with msgElement := some { m with hidden := true } }) := rfl
    have hr' : ({ item₁ with msgElement := some { m with hidden := true } } :
        FieldValidationItems).rules.find? (fun r => !(r.fn el)) = none := hr
    have heq := validateField_pass_eq hform' hitem' hel hinput hens' hr'
    have hstate : passState (passState v sel item₁ m) sel
        { item₁ with msgElement := some { m with hidden := true } }
        { m with hidden := true } =
        passState v sel item₁ m := by
      show ({ passState v sel item₁ m with
        itemsToValidate := updateAssoc (passState v sel item₁ m).itemsToValidate sel
          { item₁ with msgElement := some { m with hidden := true } } } :
        FormValidator) = passState v sel item₁ m
      rw [updateAssoc_self hitem']
    rw [heq, hstate]

/-- The state `c2v` reaches after one `validateField` call (first failing
rule `ruleUpperA` displayed). -/
def c2v1 : FormValidator :=
  { c2v with
    itemsToValidate :=
      [("input",
        { isValid := false
          style := globalDefaultStyleOptions
          msgElement := some { innerHTML := "Value must be uppercase A.", hidden := false }
          rules := [ruleAnyA, ruleUpperA] })] }

/-- Witness for C7: on `c2v` the first call returns false reaching `c2v1`,
and the repeated call returns false again leaving `c2v1` untouched. -/
theorem validateField_idempotent_witness :
    validateField c2v "input" = .ok (false, c2v1) ∧
    validateField c2v1 "input" = .ok (false, c2v1) :=
  ⟨rfl, validateField_idempotent c2v "input" false c2v1 rfl⟩

/-- C8: the submit listener runs `validate()`. When it returns false the
default submission is prevented, immediate propagation is stopped and no
callback is invoked; when it returns true the callback registered before
the event — the most recent `onSubmit` registration — is invoked exactly
once. `onSubmit` replaces any previous callback (last conjunct). -/
theorem submit_interception_spec (v v' : FormValidator) (c c' : Nat) :
    (validate v = .ok (false, v') →
      handleSubmit v = .ok (v',
        { defaultPrevented := true, propagationStopped := true, invokedCallbacks := [] })) ∧
    (validate v = .ok (true, v') →
      handleSubmit v = .ok (v',
        { defaultPrevented := false, propagationStopped := false
          invokedCallbacks := [v.submitCallback] })) ∧
    (onSubmit (onSubmit v c) c').submitCallback = c' := by
  refine ⟨?_, ?_, rfl⟩
  · intro h
    simp only [handleSubmit, h]
  · intro h
    have hsc := validate_submitCallback h
    simp only [handleSubmit, h, hsc]

/-- A passing one-field validator whose submit callback tag is 7. -/
def c8v : FormValidator :=
  { formElement := some ⟨[inputElem "A"]⟩
    itemsToValidate := [("input", defaultItem [ruleAnyA])]
    defaultStyleConfigs := globalDefaultStyleOptions
    submitCallback := 7 }

/-- The state `c8v` reaches after a successful `validate`. -/
def c8v1 : FormValidator :=
  { c8v with
    itemsToValidate :=
      [("input",
        { isValid := false
          style := globalDefaultStyleOptions
          msgElement := some { innerHTML := "", hidden := true }
          rules := [ruleAnyA] })] }

/-- Witness for C8: a submission on the passing validator invokes callback
7 exactly once with default submission allowed. -/
theorem submit_interception_spec_witness :
    handleSubmit c8v = .ok (c8v1,
      { defaultPrevented := false, propagationStopped := false, invokedCallbacks := [7] }) :=
  (submit_interception_spec c8v c8v1 0 0).2.1 rfl

/-- C9: every stored style is a complete `StyleOptions` built by
JSON-deep-copying the instance default and applying the overrides — never
a partial object stored directly (the fresh-entry conjuncts exhibit
exactly that value); registration touches only its own entry: the
instance default, the other map and every other entry are left unchanged
(the isolation conjuncts); the global default is constant data that its
deep copy reproduces exactly (last conjunct). -/
theorem style_copy_isolation (v : FormValidator) (sel g em : String) (rules : List Rule)
    (o : PartialStyleOptions) :
    ((addField v sel rules o).defaultStyleConfigs = v.defaultStyleConfigs ∧
     (addField v sel rules o).requiredGroups = v.requiredGroups ∧
     (addRequiredGroup v g em o).defaultStyleConfigs = v.defaultStyleConfigs ∧
     (addRequiredGroup v g em o).itemsToValidate = v.itemsToValidate) ∧
    (∀ sel', sel' ≠ sel →
      lookupAssoc (addField v sel rules o).itemsToValidate sel' =
        lookupAssoc v.itemsToValidate sel') ∧
    (∀ g', g' ≠ g →
      lookupAssoc (addRequiredGroup v g em o).requiredGroups g' =
        lookupAssoc v.requiredGroups g') ∧
    (lookupAssoc v.itemsToValidate sel = none →
      lookupAssoc (addField v sel rules o).itemsToValidate sel =
        some { isValid := false
               style := overwriteStyleOptions (jsonCloneStyle v.defaultStyleConfigs) o
               rules := rules }) ∧
    (∀ item, lookupAssoc v.itemsToValidate sel = some item →
      lookupAssoc (addField v sel rules o).itemsToValidate sel =
        some { item with
               rules := item.rules ++ rules
               style := overwriteStyleOptions item.style o }) ∧
    (lookupAssoc v.requiredGroups g = none →
      lookupAssoc (addRequiredGroup v g em o).requiredGroups g =
        some { isValid := false
               style := overwriteStyleOptions (jsonCloneStyle v.defaultStyleConfigs) o
               errorMsg := em }) ∧
    (∀ item, lookupAssoc v.requiredGroups g = some item →
      lookupAssoc (addRequiredGroup v g em o).requiredGroups g =
        some { item with
               errorMsg := em
               style := overwriteStyleOptions item.style o }) ∧
    jsonCloneStyle globalDefaultStyleOptions = globalDefaultStyleOptions := by
  refine ⟨⟨?_, ?_, ?_, ?_⟩, ?_, ?_, ?_, ?_, ?_, ?_, rfl⟩
  · cases hl : lookupAssoc v.itemsToValidate sel <;> simp [addField, hl]
  · cases hl : lookupAssoc v.itemsToValidate sel <;> simp [addField, hl]
  · cases hg : lookupAssoc v.requiredGroups g <;> simp [addRequiredGroup, hg]
  · cases hg : lookupAssoc v.requiredGroups g <;> simp [addRequiredGroup, hg]
  · intro sel' hne
    cases hl : lookupAssoc v.itemsToValidate sel with
    | some item =>
        simp only [addField, hl]
        exact lookupAssoc_updateAssoc_ne v.itemsToValidate hne _
    | none =>
        simp only [addField, hl]
        exact lookupAssoc_append_single_ne v.itemsToValidate hne _
  · intro g' hne
    cases hg : lookupAssoc v.requiredGroups g with
    | some item =>
        simp only [addRequiredGroup, hg]
        exact lookupAssoc_updateAssoc_ne v.requiredGroups hne _
    | none =>
        simp only [addRequiredGroup, hg]
        exact lookupAssoc_append_single_ne v.requiredGroups hne _
  · intro hl
    simp only [addField, hl]
    rw [lookupAssoc_append_none _ hl]
    simp [lookupAssoc]
  · intro item hl
    simp only [addField, hl]
    exact lookupAssoc_updateAssoc_self _ hl
  · intro hg
    simp only [addRequiredGroup, hg]
    rw [lookupAssoc_append_none _ hg]
    simp [lookupAssoc]
  · intro item hg
    simp only [addRequiredGroup, hg]
    exact lookupAssoc_updateAssoc_self _ hg

/-- Witness for C9 at a concrete validator: registering the fresh field
`#x` stores the copy-then-override style, leaves the instance default
unchanged and does not touch the existing `#a` entry. -/
theorem style_copy_isolation_witness :
    (addField vAmend "#x" [] {}).defaultStyleConfigs = vAmend.defaultStyleConfigs ∧
    lookupAssoc (addField vAmend "#x" [] {}).itemsToValidate "#a" =
      lookupAssoc vAmend.itemsToValidate "#a" ∧
    lookupAssoc (addField vAmend "#x" [] {}).itemsToValidate "#x" =
      some { isValid := false
             style := overwriteStyleOptions (jsonCloneStyle vAmend.defaultStyleConfigs) {}
             rules := [] } :=
  ⟨(style_copy_isolation vAmend "#x" "h" "Group is required." [] {}).1.1,
   (style_copy_isolation vAmend "#x" "h" "Group is required." [] {}).2.1 "#a" (by decide),
   (style_copy_isolation vAmend "#x" "h" "Group is required." [] {}).2.2.2.1 rfl⟩

/-- C4, counterexample. The claim says a key present in the override is
merged with exactly the override's value. For the `msgContainer` key
holding an element reference the merged value is the JSON-degraded plain
object, not the supplied reference. -/
theorem overwriteStyleOptions_value_cex :
    (overwriteStyleOptions globalDefaultStyleOptions
        { msgContainer := some (ContainerVal.elemRef 0) }).msgContainer ≠
      ({ msgContainer := some (ContainerVal.elemRef 0) } : PartialStyleOptions).msgContainer := by
  decide

/-- C4 (amended): the style merge is a partial overlay — merging the empty
override returns the base unchanged; every key absent from the override
retains the base's value; every serialisable key present in the override
ends with exactly the override's value; the `msgContainer` key, when
present, is overwritten too, but with the JSON clone of the override's
value — the plain empty object — rather than the supplied reference. The
override's source object is never mutated (the merge reads a clone; in
this pure model the function cannot mutate its argument). -/
theorem overwriteStyleOptions_overlay_amended (base : StyleOptions) (o : PartialStyleOptions) :
    overwriteStyleOptions base emptyStyleOverride = base ∧
    (∀ x, o.errorMsgCssClass = some x →
      (overwriteStyleOptions base o).errorMsgCssClass = x) ∧
    (o.errorMsgCssClass = none →
      (overwriteStyleOptions base o).errorMsgCssClass = base.errorMsgCssClass) ∧
    (∀ x, o.errorMsgCssStyle = some x →
      (overwriteStyleOptions base o).errorMsgCssStyle = x) ∧
    (o.errorMsgCssStyle = none →
      (overwriteStyleOptions base o).errorMsgCssStyle = base.errorMsgCssStyle) ∧
    (∀ x, o.errorFieldCssClass = some x →
      (overwriteStyleOptions base o).errorFieldCssClass = x) ∧
    (o.errorFieldCssClass = none →
      (overwriteStyleOptions base o).errorFieldCssClass = base.errorFieldCssClass) ∧
    (∀ x, o.errorFieldCssStyle = some x →
      (overwriteStyleOptions base o).errorFieldCssStyle = x) ∧
    (o.errorFieldCssStyle = none →
      (overwriteStyleOptions base o).errorFieldCssStyle = base.errorFieldCssStyle) ∧
    (∀ x, o.successMsgCssClass = some x →
      (overwriteStyleOptions base o).successMsgCssClass = x) ∧
    (o.successMsgCssClass = none →
      (overwriteStyleOptions base o).successMsgCssClass = base.successMsgCssClass) ∧
    (∀ x, o.successMsgCssStyle = some x →
      (overwriteStyleOptions base o).successMsgCssStyle = x) ∧
    (o.successMsgCssStyle = none →
      (overwriteStyleOptions base o).successMsgCssStyle = base.successMsgCssStyle) ∧
    (∀ x, o.successFieldCssClass = some x →
      (overwriteStyleOptions base o).successFieldCssClass = x) ∧
    (o.successFieldCssClass = none →
      (overwriteStyleOptions base o).successFieldCssClass = base.successFieldCssClass) ∧
    (∀ x, o.successFieldCssStyle = some x →
      (overwriteStyleOptions base o).successFieldCssStyle = x) ∧
    (o.successFieldCssStyle = none →
      (overwriteStyleOptions base o).successFieldCssStyle = base.successFieldCssStyle) ∧
    (o.msgContainer = none →
      (overwriteStyleOptions base o).msgContainer = base.msgContainer) ∧
    (∀ c, o.msgContainer = some c →
      (overwriteStyleOptions base o).msgContainer = some ContainerVal.plainObj) := by
  refine ⟨rfl, ?_, ?_, ?_, ?_, ?_, ?_, ?_, ?_, ?_, ?_, ?_, ?_, ?_, ?_, ?_, ?_, ?_, ?_⟩
  · intro x h; simp [overwriteStyleOptions, jsonClonePartial, h]
  · intro h; simp [overwriteStyleOptions, jsonClonePartial, h]
  · intro x h; simp [overwriteStyleOptions, jsonClonePartial, h]
  · intro h; simp [overwriteStyleOptions, jsonClonePartial, h]
  · intro x h; simp [overwriteStyleOptions, jsonClonePartial, h]
  · intro h; simp [overwriteStyleOptions, jsonClonePartial, h]
  · intro x h; simp [overwriteStyleOptions, jsonClonePartial, h]
  · intro h; simp [overwriteStyleOptions, jsonClonePartial, h]
  · intro x h; simp [overwriteStyleOptions, jsonClonePartial, h]
  · intro h; simp [overwriteStyleOptions, jsonClonePartial, h]
  · intro x h; simp [overwriteStyleOptions, jsonClonePartial, h]
  · intro h; simp [overwriteStyleOptions, jsonClonePartial, h]
  · intro x h; simp [overwriteStyleOptions, jsonClonePartial, h]
  · intro h; simp [overwriteStyleOptions, jsonClonePartial, h]
  · intro x h; simp [overwriteStyleOptions, jsonClonePartial, h]
  · intro h; simp [overwriteStyleOptions, jsonClonePartial, h]
  · intro h; simp [overwriteStyleOptions, jsonClonePartial, h]
  · intro c h; simp [overwriteStyleOptions, jsonClonePartial, h]

/-- Witness for C4's amended theorem: a present serialisable key takes the
override's value, an absent key keeps the base's, and a present container
key degrades to the plain object. -/
theorem overwriteStyleOptions_overlay_amended_witness :
    (overwriteStyleOptions globalDefaultStyleOptions
        { errorMsgCssClass := some (CssClassVal.one "x") }).errorMsgCssClass =
      CssClassVal.one "x" ∧
    (overwriteStyleOptions globalDefaultStyleOptions
        { errorMsgCssClass := some (CssClassVal.one "x") }).msgContainer =
      globalDefaultStyleOptions.msgContainer ∧
    (overwriteStyleOptions globalDefaultStyleOptions
        { msgContainer := some (ContainerVal.elemRef 3) }).msgContainer =
      some ContainerVal.plainObj := by
  refine ⟨?_, ?_, ?_⟩
  · exact (overwriteStyleOptions_overlay_amended globalDefaultStyleOptions
      { errorMsgCssClass := some (CssClassVal.one "x") }).2.1 _ rfl
  · have h := overwriteStyleOptions_overlay_amended globalDefaultStyleOptions
      { errorMsgCssClass := some (CssClassVal.one "x") }
    exact h.2.2.2.2.2.2.2.2.2.2.2.2.2.2.2.2.2.1 rfl
  · have h := overwriteStyleOptions_overlay_amended globalDefaultStyleOptions
      { msgContainer := some (ContainerVal.elemRef 3) }
    exact h.2.2.2.2.2.2.2.2.2.2.2.2.2.2.2.2.2.2 _ rfl

/-- C5, code evaluation at the failing input. An override carrying a
message-container element reference does not replace the prior value with
that reference: `JSON.parse(JSON.stringify(·))` turns the `HTMLElement`
into the plain empty object, so the merged `msgContainer` is `\x7b\x7d`,
and the later `msgContainer?.appendChild` on it throws a `TypeError` when
the message element is first created. -/
theorem msgContainer_reference_destroyed :
    (overwriteStyleOptions globalDefaultStyleOptions
        { msgContainer := some (ContainerVal.elemRef 7) }).msgContainer =
      some ContainerVal.plainObj ∧
    (overwriteStyleOptions globalDefaultStyleOptions
        { msgContainer := some (ContainerVal.elemRef 7) }).msgContainer ≠
      some (ContainerVal.elemRef 7) ∧
    ensureMsgElement
      { isValid := false
        style := overwriteStyleOptions globalDefaultStyleOptions
          { msgContainer := some (ContainerVal.elemRef 7) }
        rules := [] } = .error .appendChildTypeError :=
  ⟨rfl, by decide, rfl⟩

end FormSpec
